import Mathlib

/-!
Verification of the toolchain/SDK resolution engine of the xcode-tools
repository (src/xcrun/xcrun.c and src/xcode-select/xcode-select.c) against
its natural-language specification.  Every definition below is a shallow
embedding of a function of the C source; filesystem and descriptor-file
contents are passed in as explicit oracles (a directory-content predicate,
a descriptor-field map), and process-terminating error paths become
Option/Except values.
-/

namespace XcodeTools

/-! ## String helpers (xcrun.c, `stripext`, lines 104-115, and POSIX basename) -/

/-- Character-list core of `stripext`: the C code finds the FIRST '.' with
`strchr` and copies `s - src` characters, i.e. the prefix before the first
dot; with no dot it copies the whole string. -/
def stripextL : List Char → List Char
  | [] => []
  | c :: cs => if c = '.' then [] else c :: stripextL cs

/-- `stripext` (xcrun.c lines 104-115): strip from the first '.' onwards. -/
def stripext (src : String) : String := ⟨stripextL src.data⟩

/-- Split a character list at every occurrence of `sep` (the pieces, in
order, separators dropped); the char-list analogue of splitting a path on
slashes. -/
def splitOnCharL (sep : Char) : List Char → List (List Char)
  | [] => [[]]
  | c :: cs =>
    let r := splitOnCharL sep cs
    if c = sep then [] :: r
    else
      match r with
      | [] => [[c]]
      | h :: t => (c :: h) :: t

/-- POSIX `basename` as used by xcrun.c (via libgen.h): the last non-empty
path component; "/" for an all-slash path, "." for the empty string. -/
def basename (s : String) : String :=
  match ((splitOnCharL '/' s.data).filter (fun p => p ≠ [])).getLast? with
  | some p => ⟨p⟩
  | none => if s.data = [] then "." else "/"

/-! ## Path construction (xcrun.c `get_sdk_path` lines 457-479,
`get_toolchain_path` lines 428-450).  Both functions validate that the
directory exists and terminate the process otherwise; on the non-exiting
path they return the sprintf-built string, which is what we embed. -/

def get_sdk_path (developer_dir name : String) : String :=
  developer_dir ++ "/SDKs/" ++ name ++ ".sdk"

def get_toolchain_path (developer_dir name : String) : String :=
  developer_dir ++ "/Toolchains/" ++ name ++ ".toolchain"

/-! ## Resolution context (xcrun.c globals, lines 78-90, and the name
resolution in `xcrun_main` lines 963-977 / `request_command` lines 719-733) -/

/-- The default configuration read from /etc/xcrun.ini
(`default_config`, xcrun.c lines 67-70). -/
structure DefaultConfig where
  sdk : String
  toolchain : String

/-- Per-invocation resolution state: the globals `developer_dir`,
`current_sdk`, `current_toolchain`, `explicit_sdk_mode`,
`explicit_toolchain_mode`, `alternate_sdk_path`, `alternate_toolchain_path`
of xcrun.c (lines 78-90). -/
structure ResolutionContext where
  developerDir : String
  currentSdk : String
  currentToolchain : String
  explicitSdkMode : Bool
  explicitToolchainMode : Bool
  alternateSdkPath : Option String
  alternateToolchainPath : Option String

/-- Resolution of `current_sdk` when no --sdk name flag was given
(xcrun.c lines 963-969): basename of SDKROOT run through `stripext`,
else the default config's sdk name. -/
def resolveCurrentSdk (sdkRootEnv : Option String) (dc : DefaultConfig) : String :=
  match sdkRootEnv with
  | some v => stripext (basename v)
  | none => dc.sdk

/-- Resolution of `current_toolchain` when no --toolchain name flag was
given (xcrun.c lines 971-977). -/
def resolveCurrentToolchain (toolchainsEnv : Option String) (dc : DefaultConfig) : String :=
  match toolchainsEnv with
  | some v => stripext (basename v)
  | none => dc.toolchain

/-- Build the `ResolutionContext` the way `xcrun_main` does:
`explicitSdkName` models a `--sdk` flag whose argument is a short name
(xcrun.c lines 885-889: sets `explicit_sdk_mode` and stripext-strips the
name, no basename), `altSdk`/`altToolchain` model the flags given an
absolute path (lines 880-884: `alternate_sdk_path`, no mode flag), and
the environment fallbacks are lines 963-977. -/
def mkContext (developerDir : String) (dc : DefaultConfig)
    (sdkRootEnv toolchainsEnv : Option String)
    (explicitSdkName explicitToolchainName : Option String)
    (altSdk altToolchain : Option String) : ResolutionContext where
  developerDir := developerDir
  currentSdk :=
    match explicitSdkName with
    | some s => stripext s
    | none => resolveCurrentSdk sdkRootEnv dc
  currentToolchain :=
    match explicitToolchainName with
    | some t => stripext t
    | none => resolveCurrentToolchain toolchainsEnv dc
  explicitSdkMode := explicitSdkName.isSome
  explicitToolchainMode := explicitToolchainName.isSome
  alternateSdkPath := altSdk
  alternateToolchainPath := altToolchain

/-! ## Path Resolver (`request_command`, xcrun.c lines 735-769)

The C code builds a colon-separated `search_string`; we embed it as the
list of directory entries that `strtok` later splits it into (strtok
drops the empty entry a trailing colon leaves behind).
`descrToolchain p` is the `toolchain` field of the SDK descriptor found
at directory `p` (what `get_sdk_info(p).toolchain` returns), and
`sdkAuthentic p` is `test_sdk_authenticity(p)` (existence of
`p/info.ini`, lines 118-132). -/

def resolveSearchDirectories (descrToolchain : String → String)
    (sdkAuthentic : String → Bool) (ctx : ResolutionContext) : List String :=
  -- line 736: no matter the circumstance, search the developer dir
  let base := [ctx.developerDir ++ "/usr/bin"]
  -- lines 739-743: explicit sdk name mode
  if ctx.explicitSdkMode then
    let sdkP := get_sdk_path ctx.developerDir ctx.currentSdk
    base ++ [sdkP ++ "/usr/bin",
      get_toolchain_path ctx.developerDir (descrToolchain sdkP) ++ "/usr/bin"]
  -- lines 746-749: explicit toolchain name mode
  else if ctx.explicitToolchainMode then
    base ++ [get_toolchain_path ctx.developerDir ctx.currentToolchain ++ "/usr/bin"]
  else
    match ctx.alternateSdkPath with
    | some p =>
      -- lines 752-761: absolute sdk override; with info.ini present the
      -- associated toolchain is appended and control jumps to the search
      if sdkAuthentic p then
        base ++ [p ++ "/usr/bin",
          get_toolchain_path ctx.developerDir (descrToolchain p) ++ "/usr/bin"]
      else
        -- no goto: control falls through to the toolchain-override test
        -- (lines 764-765); the line-768 default test is false here
        match ctx.alternateToolchainPath with
        | some t => base ++ [p ++ "/usr/bin", t ++ "/usr/bin"]
        | none => base ++ [p ++ "/usr/bin"]
    | none =>
      match ctx.alternateToolchainPath with
      -- lines 764-765: absolute toolchain override
      | some t => base ++ [t ++ "/usr/bin"]
      -- lines 768-769: nothing explicit, default sdk and toolchain
      | none =>
        base ++ [get_sdk_path ctx.developerDir ctx.currentSdk ++ "/usr/bin",
          get_toolchain_path ctx.developerDir ctx.currentToolchain ++ "/usr/bin"]

/-! ## Target-Triple Synthesizer (`parse_target_triple`, xcrun.c lines 487-576) -/

/-- The scanning state of `parse_target_triple`: `whereIdx` is the C local
`where` (which component digits currently go to), `xx`/`yy`/`zz` are the
major/minor/patch accumulators. -/
structure VerState where
  whereIdx : Nat
  xx : Nat
  yy : Nat
  zz : Nat

/-- One step of the scanning loop (xcrun.c lines 497-534): a digit extends
the component selected by `where` (components beyond the third are
ignored), any other character advances `where`. -/
def scanChar (st : VerState) (c : Char) : VerState :=
  if c.isDigit then
    match st.whereIdx with
    | 1 => { st with xx := st.xx * 10 + (c.toNat - 48) }
    | 2 => { st with yy := st.yy * 10 + (c.toNat - 48) }
    | 3 => { st with zz := st.zz * 10 + (c.toNat - 48) }
    | _ => st
  else
    { st with whereIdx := st.whereIdx + 1 }

/-- The digit-scanning loop of `parse_target_triple` over the whole version
string (the final iteration on the NUL terminator only bumps `where`,
which has no observable effect on the components). -/
def parseVersion (ver : String) : VerState :=
  ver.data.foldl scanChar ⟨1, 0, 0, 0⟩

/-- The kernel-version switch of `parse_target_triple`
(xcrun.c lines 536-571), case order as in the source. -/
def kern_ver (xx yy : Nat) : Nat :=
  if xx = 10 then yy + 4
  else if xx = 9 then 14
  else if xx = 8 then 14
  else if xx = 7 then 14
  else if xx = 6 then 13
  else if xx = 5 then 11
  else if xx = 4 then (if yy ≤ 2 then 10 else 11)
  else if xx = 3 then 10
  else if xx = 2 then 9
  else 9

/-- `parse_target_triple` (xcrun.c lines 487-576): a NULL version string
returns without writing the buffer (embedded as `none`); otherwise the
buffer receives `sprintf("%s-apple-darwin%d", arch, kern_ver)`. -/
def parse_target_triple : Option String → String → Option String
  | none, _ => none
  | some v, arch =>
    let st := parseVersion v
    some (arch ++ "-apple-darwin" ++ toString (kern_ver st.xx st.yy))

/-- The kernel-version mapping table exactly as the specification words it
(spec section 4.3): major 10 gives minor+4; majors 7, 8, 9 give 14; major 6
gives 13; major 5 gives 11; major 4 gives 10 if minor <= 2 else 11; major 3
gives 10; major 2 gives 9; any other major gives 9. -/
def kernelVersionSpec (major minor : Nat) : Nat :=
  if major = 10 then minor + 4
  else if major = 7 ∨ major = 8 ∨ major = 9 then 14
  else if major = 6 then 13
  else if major = 5 then 11
  else if major = 4 then (if minor ≤ 2 then 10 else 11)
  else if major = 3 then 10
  else if major = 2 then 9
  else 9

/-! ## Descriptor Store (`sdk_cfg_handler`, xcrun.c lines 264-288)

The INI parser invokes the handler once per key/value pair, in file order,
mutating the shared `sdk_config` plus the two global flags
`ios_deployment_target_set` / `macosx_deployment_target_set`
(xcrun.c lines 80-81).  We embed the handler as a fold over the list of
(section, key, value) triples of the file. -/

/-- `sdk_config` (xcrun.c lines 58-64) together with the two deployment
flag globals. -/
structure SdkCfgState where
  name : Option String
  version : Option String
  toolchain : Option String
  default_arch : Option String
  deployment_target : Option String
  iosSet : Bool
  macosxSet : Bool
deriving DecidableEq, Repr

/-- All fields unset, flags 0, as at program start. -/
def sdkCfgInit : SdkCfgState :=
  ⟨none, none, none, none, none, false, false⟩

/-- `sdk_cfg_handler` (xcrun.c lines 264-288): the else-if chain matching
section "SDK" and each recognized key; the two deployment keys each set
their own flag, clear the other, and overwrite `deployment_target`;
unmatched keys change nothing. -/
def sdk_cfg_handler (st : SdkCfgState) (e : String × String × String) : SdkCfgState :=
  if e.1 = "SDK" ∧ e.2.1 = "name" then { st with name := some e.2.2 }
  else if e.1 = "SDK" ∧ e.2.1 = "version" then { st with version := some e.2.2 }
  else if e.1 = "SDK" ∧ e.2.1 = "toolchain" then { st with toolchain := some e.2.2 }
  else if e.1 = "SDK" ∧ e.2.1 = "default_arch" then { st with default_arch := some e.2.2 }
  else if e.1 = "SDK" ∧ e.2.1 = "ios_deployment_target" then
    { st with iosSet := true, macosxSet := false, deployment_target := some e.2.2 }
  else if e.1 = "SDK" ∧ e.2.1 = "macosx_deployment_target" then
    { st with iosSet := false, macosxSet := true, deployment_target := some e.2.2 }
  else st

/-- Processing a whole descriptor file: the INI parser visits the entries
in file order (`get_sdk_info`, xcrun.c lines 340-356). -/
def loadSdkConfig (entries : List (String × String × String)) : SdkCfgState :=
  entries.foldl sdk_cfg_handler sdkCfgInit

/-- Classify an INI entry as a deployment-target entry:
`some (true, v)` for the ios key, `some (false, v)` for the macosx key. -/
def depEntry (e : String × String × String) : Option (Bool × String) :=
  if e.1 = "SDK" ∧ e.2.1 = "ios_deployment_target" then some (true, e.2.2)
  else if e.1 = "SDK" ∧ e.2.1 = "macosx_deployment_target" then some (false, e.2.2)
  else none

/-! ## Invocation Builder deployment variable (`call_command`,
xcrun.c lines 614-635)

`envp[3]` is a single slot; which variable it receives and from where is
decided by the chain of gotos: IOS_DEPLOYMENT_TARGET from the caller's
environment first, then MACOSX_DEPLOYMENT_TARGET from the environment,
then the SDK descriptor's `deployment_target` under the flag recorded by
the descriptor load.  A descriptor without a deployment value is the
fatal-error branch (line 633: report and exit 1), embedded as `none`. -/

inductive DepVar where
  | ios
  | macosx
deriving DecidableEq, Repr

/-- The deployment-target slot of `call_command` (xcrun.c lines 614-635):
the pair (variable name, value) written to `envp[3]`, or `none` when no
variable is written (fatal error when the descriptor lacks the field, or
the flagless fallthrough). -/
def call_command_depvar (iosEnv macEnv : Option String) (st : SdkCfgState) :
    Option (DepVar × String) :=
  match iosEnv with
  | some v => some (DepVar.ios, v)
  | none =>
    match macEnv with
    | some v => some (DepVar.macosx, v)
    | none =>
      match st.deployment_target with
      | some v =>
        if st.macosxSet then some (DepVar.macosx, v)
        else if st.iosSet then some (DepVar.ios, v)
        else none
      | none => none

/-! ## Tool Locator (`search_command`, xcrun.c lines 671-699, and the
find-mode re-check of `request_command`, lines 772-781)

`fs p` is the oracle for `access(p, F_OK | X_OK) != -1`: path `p` exists
and is executable. -/

/-- `search_command`: walk the directory list in order; on a hit the `cmd`
buffer holds that candidate and the loop breaks.  When no entry hits, the
function still returns the buffer, which then holds the LAST candidate
tried (the C function never returns NULL); an empty directory list leaves
the buffer unwritten, embedded as `none`. -/
def search_command (fs : String → Bool) (name : String) : List String → Option String
  | [] => none
  | d :: ds =>
    let cmd := d ++ "/" ++ name
    if fs cmd then some cmd
    else
      match search_command fs name ds with
      | some c => some c
      | none => some cmd

/-- The locate operation as observable in find mode (`request_command`
lines 772-781): run `search_command`, then re-test the returned candidate
with `access`; only a candidate passing the re-test is a find. -/
def locate (fs : String → Bool) (name : String) (dirs : List String) : Option String :=
  match search_command fs name dirs with
  | none => none
  | some cmd => if fs cmd then some cmd else none

/-- Find-mode outcome of `request_command` (lines 772-781) combined with
`xcrun_main` (lines 1026-1034): a located path is printed and the exit
status is 0; otherwise the error is reported to stderr and the process
exits 1. -/
def request_command_find (fs : String → Bool) (name : String) (dirs : List String) :
    Except Nat String :=
  match locate fs name dirs with
  | some cmd => Except.ok cmd
  | none => Except.error 1

/-! ## Developer-path cache (xcode-select.c)

`set_developer_path` (lines 142-169) writes `strlen(path)` bytes of the
path to the cache file, no terminator and no newline.  `get_developer_path`
(lines 99-135) zeroes a `PATH_MAX - 1` = 4095 byte buffer, freads up to
4095 bytes of the file into it and uses the result as a C string (the
bytes before the first NUL). -/

/-- The cache-file content produced by `set_developer_path`. -/
def set_developer_path (path : String) : String := path

/-- `get_developer_path`: the DEVELOPER_DIR environment variable wins
(lines 107-108); otherwise the value read from the cache-file content. -/
def get_developer_path (devDirEnv : Option String) (content : String) : String :=
  match devDirEnv with
  | some v => v
  | none => ⟨((content.data.take 4095).takeWhile (fun c => c.toNat != 0))⟩

/-! ## Multicall dispatch (xcrun.c lines 93-98, 1056-1066, 1082-1110) -/

/-- `multicall_tool_names` (xcrun.c lines 93-98). -/
def multicall_tool_names : List String :=
  ["xcrun", "xcrun_log", "xcrun_verbose", "xcrun_nocache"]

/-- `get_multicall_state` (xcrun.c lines 1056-1066): compare `cmd` against
`state[i]` for `i < state_size - 1` and return the first matching `i + 1`,
else -1. -/
def get_multicall_state (cmd : String) (state : List String) (state_size : Nat) : Int :=
  match (List.range (state_size - 1)).find? (fun i => state.getD i "" == cmd) with
  | some i => Int.ofNat i + 1
  | none => -1

/-- What `main` (xcrun.c lines 1085-1110) does with the multicall state:
run `xcrun_main` (with logging/verbose preset for states 2/3), or treat
the invoked name as a tool to locate and execute (states -1/default). -/
inductive DispatchAction where
  | xcrunMain (loggingMode verboseMode : Bool)
  | execAsToolName
deriving DecidableEq, Repr

/-- The dispatch switch of `main` (xcrun.c lines 1082-1110); `state_size`
is passed as the literal 4 as in line 1082. -/
def main_dispatch (this_tool : String) : DispatchAction :=
  let call_state := get_multicall_state this_tool multicall_tool_names 4
  if call_state = 1 then DispatchAction.xcrunMain false false
  else if call_state = 2 then DispatchAction.xcrunMain true false
  else if call_state = 3 then DispatchAction.xcrunMain false true
  else if call_state = 4 then DispatchAction.xcrunMain false false
  else DispatchAction.execAsToolName

/-! ## Helper lemmas -/

/-- The C switch of `parse_target_triple` computes exactly the table the
specification states. -/
theorem kern_ver_eq_spec (xx yy : Nat) : kern_ver xx yy = kernelVersionSpec xx yy := by
  unfold kern_ver kernelVersionSpec
  split_ifs <;> omega

/-- `stripextL` truncates at the first dot: on a string `a ++ "." ++ b`
with no dot in `a`, only `a` survives. -/
theorem stripextL_append_dot (a b : List Char) (h : '.' ∉ a) :
    stripextL (a ++ '.' :: b) = a := by
  induction a with
  | nil => simp [stripextL]
  | cons c cs ih =>
    have hc : c ≠ '.' := fun hc => h (hc ▸ List.mem_cons_self c cs)
    have hcs : '.' ∉ cs := fun hm => h (List.mem_cons_of_mem c hm)
    simp [stripextL, hc, ih hcs]

/-! ## Claim theorems -/

/-- C1: for every ResolutionContext with no explicit SDK selection, no
explicit toolchain selection and no absolute override paths, the resolver
returns exactly `<DeveloperRoot>/usr/bin`, `<defaultSdk>/usr/bin`,
`<defaultToolchain>/usr/bin` in that order, the defaults being the names
from DefaultConfig. -/
theorem spec_C1 (dev : String) (dc : DefaultConfig)
    (descrToolchain : String → String) (sdkAuthentic : String → Bool) :
    resolveSearchDirectories descrToolchain sdkAuthentic
      (mkContext dev dc none none none none none none) =
      [dev ++ "/usr/bin",
       get_sdk_path dev dc.sdk ++ "/usr/bin",
       get_toolchain_path dev dc.toolchain ++ "/usr/bin"] := rfl

/-- C4: for every non-null version string and architecture,
`parse_target_triple` produces `<arch>-apple-darwin<k>` with `k` given by
the documented table applied to the parsed major/minor components; in
particular "10.9"/x86_64 gives darwin13 and "6.0"/armv7 gives darwin13. -/
theorem spec_C4 :
    (∀ (v arch : String),
      parse_target_triple (some v) arch =
        some (arch ++ "-apple-darwin" ++
          toString (kernelVersionSpec (parseVersion v).xx (parseVersion v).yy))) ∧
    parse_target_triple (some "10.9") "x86_64" = some "x86_64-apple-darwin13" ∧
    parse_target_triple (some "6.0") "armv7" = some "armv7-apple-darwin13" := by
  refine ⟨fun v arch => ?_, rfl, rfl⟩
  simp [parse_target_triple, kern_ver_eq_spec]

/-- C9: `stripext` truncates at the FIRST dot of its input, not the last;
an SDK name such as "MacOSX10.9.sdk" (whether from the --sdk flag or the
basename of SDKROOT) is therefore recorded as "MacOSX10", not
"MacOSX10.9". -/
theorem spec_C9 :
    (∀ (a b : List Char), '.' ∉ a → stripextL (a ++ '.' :: b) = a) ∧
    stripext "MacOSX10.9.sdk" = "MacOSX10" ∧
    stripext (basename "/opt/sdks/MacOSX10.9.sdk") = "MacOSX10" ∧
    ("MacOSX10" : String) ≠ "MacOSX10.9" := by
  refine ⟨stripextL_append_dot, rfl, by decide, by decide⟩

/-- Witness for C9: the first-dot truncation applied at a concrete input. -/
theorem spec_C9_witness :
    ('.' ∉ (['a', 'b'] : List Char)) ∧
      stripextL ((['a', 'b'] : List Char) ++ '.' :: ['c']) = ['a', 'b'] :=
  ⟨by decide, spec_C9.1 ['a', 'b'] ['c'] (by decide)⟩

/-- C10: `get_multicall_state` only compares against the first
`state_size - 1` aliases, so it can never return the index of the last
alias; invoked as "xcrun_nocache" (the last entry) the binary falls into
the default branch of `main` and treats the name as a tool to locate and
execute. -/
theorem spec_C10 :
    (∀ cmd : String, get_multicall_state cmd multicall_tool_names 4 ≠ 4) ∧
    get_multicall_state "xcrun_nocache" multicall_tool_names 4 = -1 ∧
    main_dispatch "xcrun_nocache" = DispatchAction.execAsToolName := by
  refine ⟨fun cmd => ?_, by decide, by decide⟩
  unfold get_multicall_state
  cases h : (List.range (4 - 1)).find? (fun i => multicall_tool_names.getD i "" == cmd) with
  | none => simp
  | some i =>
    have hmem := List.mem_of_find?_eq_some h
    have hi : i < 3 := by simpa [List.mem_range] using hmem
    show Int.ofNat i + 1 ≠ 4
    simp only [Int.ofNat_eq_coe]
    omega

/-- C3 counterexample: with both absolute override paths given and an SDK
override directory that has no `info.ini`, the resolver emits the entries
of BOTH override rules — the SDK override's `usr/bin` and the toolchain
override's `usr/bin` — so the rules are not mutually exclusive. -/
theorem spec_C3_counterexample :
    resolveSearchDirectories (fun _ => "X") (fun _ => false)
      (mkContext "/d" ⟨"DS", "DT"⟩ none none none none (some "/as") (some "/at")) =
      ["/d/usr/bin", "/as/usr/bin", "/at/usr/bin"] ∧
    "/at/usr/bin" ∈ resolveSearchDirectories (fun _ => "X") (fun _ => false)
      (mkContext "/d" ⟨"DS", "DT"⟩ none none none none (some "/as") (some "/at")) ∧
    "/as/usr/bin" ∈ resolveSearchDirectories (fun _ => "X") (fun _ => false)
      (mkContext "/d" ⟨"DS", "DT"⟩ none none none none (some "/as") (some "/at")) := by
  refine ⟨rfl, by decide, by decide⟩

/-- C3 amended: when no explicit SDK/toolchain name is pinned and both
absolute override paths are given, the search list is fully determined as
follows: if the SDK override directory passes the `info.ini` authenticity
test, only the SDK-override rule contributes (its directory plus its
descriptor's toolchain); otherwise the SDK-override entry AND the
toolchain-override entry both contribute. -/
theorem spec_C3_amended (descrToolchain : String → String) (sdkAuthentic : String → Bool)
    (ctx : ResolutionContext) (p t : String)
    (hsdk : ctx.explicitSdkMode = false) (htc : ctx.explicitToolchainMode = false)
    (hp : ctx.alternateSdkPath = some p) (ht : ctx.alternateToolchainPath = some t) :
    resolveSearchDirectories descrToolchain sdkAuthentic ctx =
      if sdkAuthentic p then
        [ctx.developerDir ++ "/usr/bin", p ++ "/usr/bin",
         get_toolchain_path ctx.developerDir (descrToolchain p) ++ "/usr/bin"]
      else
        [ctx.developerDir ++ "/usr/bin", p ++ "/usr/bin", t ++ "/usr/bin"] := by
  unfold resolveSearchDirectories
  rw [hsdk, htc, hp, ht]
  by_cases h : sdkAuthentic p <;> simp [h]

/-- Witness for C3's amended theorem at a concrete context. -/
theorem spec_C3_amended_witness :
    resolveSearchDirectories (fun _ => "X") (fun _ => true)
      (mkContext "/d" ⟨"DS", "DT"⟩ none none none none (some "/as") (some "/at")) =
      ["/d/usr/bin", "/as/usr/bin", "/d/Toolchains/X.toolchain/usr/bin"] := by
  have h := spec_C3_amended (fun _ => "X") (fun _ => true)
    (mkContext "/d" ⟨"DS", "DT"⟩ none none none none (some "/as") (some "/at"))
    "/as" "/at" rfl rfl rfl rfl
  simpa using h

/-! ### C6 helpers -/

/-- `search_command` returns the first matching candidate. -/
theorem search_command_first_hit (fs : String → Bool) (name : String)
    (pre : List String) (d : String) (post : List String)
    (hpre : ∀ p ∈ pre, fs (p ++ "/" ++ name) = false)
    (hd : fs (d ++ "/" ++ name) = true) :
    search_command fs name (pre ++ d :: post) = some (d ++ "/" ++ name) := by
  induction pre with
  | nil => simp [search_command, hd]
  | cons p ps ih =>
    have hp := hpre p (List.mem_cons_self p ps)
    have hps : ∀ q ∈ ps, fs (q ++ "/" ++ name) = false :=
      fun q hq => hpre q (List.mem_cons_of_mem p hq)
    simp [search_command, hp, ih hps]

/-- Whatever `search_command` returns is a candidate built from some
directory of the list. -/
theorem search_command_mem (fs : String → Bool) (name : String) :
    ∀ (dirs : List String) (c : String),
      search_command fs name dirs = some c → ∃ p ∈ dirs, c = p ++ "/" ++ name := by
  intro dirs
  induction dirs with
  | nil => intro c h; simp [search_command] at h
  | cons d ds ih =>
    intro c h
    unfold search_command at h
    by_cases hfs : fs (d ++ "/" ++ name)
    · rw [if_pos hfs] at h
      exact ⟨d, List.mem_cons_self d ds, (Option.some.injEq _ _ ▸ h).symm⟩
    · rw [if_neg hfs] at h
      cases hrec : search_command fs name ds with
      | some c2 =>
        rw [hrec] at h
        obtain ⟨p, hp, hc⟩ := ih c2 hrec
        have hcc : c = c2 := by simpa using h.symm
        exact ⟨p, List.mem_cons_of_mem d hp, hcc ▸ hc⟩
      | none =>
        rw [hrec] at h
        have hcc : c = d ++ "/" ++ name := by simpa using h.symm
        exact ⟨d, List.mem_cons_self d ds, hcc⟩

/-- C6: the locator walks the directories in order testing
`<dir>/<name>` and yields the candidate of the first matching directory;
when no directory matches, the located result is NotFound (`none`) and
find mode reports the failure with exit status 1 (no crash). -/
theorem spec_C6 :
    (∀ (fs : String → Bool) (name : String) (pre : List String) (d : String)
        (post : List String),
      (∀ p ∈ pre, fs (p ++ "/" ++ name) = false) → fs (d ++ "/" ++ name) = true →
      locate fs name (pre ++ d :: post) = some (d ++ "/" ++ name)) ∧
    (∀ (fs : String → Bool) (name : String) (dirs : List String),
      (∀ p ∈ dirs, fs (p ++ "/" ++ name) = false) →
      locate fs name dirs = none ∧ request_command_find fs name dirs = Except.error 1) := by
  constructor
  · intro fs name pre d post hpre hd
    unfold locate
    rw [search_command_first_hit fs name pre d post hpre hd]
    simp [hd]
  · intro fs name dirs hnone
    have hloc : locate fs name dirs = none := by
      unfold locate
      cases h : search_command fs name dirs with
      | none => rfl
      | some c =>
        obtain ⟨p, hp, hc⟩ := search_command_mem fs name dirs c h
        subst hc
        simp [hnone p hp]
    exact ⟨hloc, by unfold request_command_find; rw [hloc]⟩

/-- Witness for C6: a concrete hit in the second directory and a concrete
miss everywhere. -/
theorem spec_C6_witness :
    locate (fun s => s == "/a/x") "x" (["/b"] ++ "/a" :: []) = some ("/a" ++ "/" ++ "x") ∧
    request_command_find (fun _ => false) "x" ["/b"] = Except.error 1 :=
  ⟨spec_C6.1 (fun s => s == "/a/x") "x" ["/b"] "/a" [] (by decide) (by decide),
   (spec_C6.2 (fun _ => false) "x" ["/b"] (by decide)).2⟩

/-! ### C7 helpers -/

/-- The handler never leaves both deployment flags set. -/
theorem foldl_flags_exclusive :
    ∀ (entries : List (String × String × String)) (st : SdkCfgState),
      ¬(st.iosSet ∧ st.macosxSet) →
      ¬((entries.foldl sdk_cfg_handler st).iosSet ∧
        (entries.foldl sdk_cfg_handler st).macosxSet) := by
  intro entries
  induction entries with
  | nil => intro st h; exact h
  | cons e es ih =>
    intro st h
    apply ih
    unfold sdk_cfg_handler
    split_ifs <;> simp_all

/-- An entry that is not a deployment-target entry leaves the deployment
fields untouched. -/
theorem handler_preserves_of_depEntry_none (st : SdkCfgState)
    (e : String × String × String) (h : depEntry e = none) :
    (sdk_cfg_handler st e).deployment_target = st.deployment_target ∧
    (sdk_cfg_handler st e).iosSet = st.iosSet ∧
    (sdk_cfg_handler st e).macosxSet = st.macosxSet := by
  unfold depEntry at h
  unfold sdk_cfg_handler
  split_ifs at h ⊢ <;> simp_all

/-- A deployment-target entry rewrites exactly the deployment fields:
value from the entry, flags per its kind. -/
theorem handler_dep_some (st : SdkCfgState) (e : String × String × String)
    (b : Bool) (v : String) (h : depEntry e = some (b, v)) :
    (sdk_cfg_handler st e).deployment_target = some v ∧
    (sdk_cfg_handler st e).iosSet = b ∧
    (sdk_cfg_handler st e).macosxSet = !b := by
  unfold depEntry at h
  unfold sdk_cfg_handler
  split_ifs at h ⊢ <;> simp_all

/-- A fold over entries containing no deployment-target entry preserves the
deployment fields. -/
theorem foldl_dep_preserved :
    ∀ (entries : List (String × String × String)) (st : SdkCfgState),
      entries.filterMap depEntry = [] →
      (entries.foldl sdk_cfg_handler st).deployment_target = st.deployment_target ∧
      (entries.foldl sdk_cfg_handler st).iosSet = st.iosSet ∧
      (entries.foldl sdk_cfg_handler st).macosxSet = st.macosxSet := by
  intro entries
  induction entries with
  | nil => intro st _; exact ⟨rfl, rfl, rfl⟩
  | cons e es ih =>
    intro st h
    rw [List.filterMap_cons] at h
    cases hd : depEntry e with
    | some bv => rw [hd] at h; simp at h
    | none =>
      rw [hd] at h
      have hpres := handler_preserves_of_depEntry_none st e hd
      have hrec := ih (sdk_cfg_handler st e) h
      exact ⟨hrec.1.trans hpres.1, hrec.2.1.trans hpres.2.1, hrec.2.2.trans hpres.2.2⟩

/-- The final deployment fields are those of the LAST deployment-target
entry of the file, whatever the starting state. -/
theorem foldl_last_dep :
    ∀ (entries : List (String × String × String)) (st : SdkCfgState)
      (b : Bool) (v : String),
      (entries.filterMap depEntry).getLast? = some (b, v) →
      (entries.foldl sdk_cfg_handler st).deployment_target = some v ∧
      (entries.foldl sdk_cfg_handler st).iosSet = b ∧
      (entries.foldl sdk_cfg_handler st).macosxSet = !b := by
  intro entries
  induction entries with
  | nil => intro st b v h; simp at h
  | cons e es ih =>
    intro st b v h
    rw [List.filterMap_cons] at h
    cases hd : depEntry e with
    | none =>
      rw [hd] at h
      exact ih (sdk_cfg_handler st e) b v h
    | some bv =>
      rw [hd] at h
      cases hes : es.filterMap depEntry with
      | nil =>
        rw [hes] at h
        have hbv : bv = (b, v) := by simpa using h
        subst hbv
        have hstep := handler_dep_some st e b v hd
        have hpres := foldl_dep_preserved es (sdk_cfg_handler st e) hes
        exact ⟨hpres.1.trans hstep.1, hpres.2.1.trans hstep.2.1,
               hpres.2.2.trans hstep.2.2⟩
      | cons q qs =>
        rw [hes] at h
        have h' : (es.filterMap depEntry).getLast? = some (b, v) := by
          rw [hes]
          simpa [List.getLast?_cons_cons] using h
        exact ih (sdk_cfg_handler st e) b v h'

/-- C7: when a descriptor file contains several deployment-target keys, the
loader records the kind and value of the one appearing LAST in the file (the
later key overwrites the earlier), and the two recorded-kind flags are never
both set. -/
theorem spec_C7 :
    (∀ entries : List (String × String × String),
      ¬((loadSdkConfig entries).iosSet ∧ (loadSdkConfig entries).macosxSet)) ∧
    (∀ (entries : List (String × String × String)) (b : Bool) (v : String),
      (entries.filterMap depEntry).getLast? = some (b, v) →
      (loadSdkConfig entries).deployment_target = some v ∧
      (loadSdkConfig entries).iosSet = b ∧
      (loadSdkConfig entries).macosxSet = !b) := by
  constructor
  · intro entries
    exact foldl_flags_exclusive entries sdkCfgInit (by simp [sdkCfgInit])
  · intro entries b v h
    exact foldl_last_dep entries sdkCfgInit b v h

/-- Witness for C7: a descriptor listing the ios key, then the macosx key;
the macosx key (appearing later) wins. -/
theorem spec_C7_witness :
    (loadSdkConfig [("SDK", "ios_deployment_target", "7.0"),
                    ("SDK", "macosx_deployment_target", "10.9")]).deployment_target =
      some "10.9" ∧
    (loadSdkConfig [("SDK", "ios_deployment_target", "7.0"),
                    ("SDK", "macosx_deployment_target", "10.9")]).iosSet = false ∧
    (loadSdkConfig [("SDK", "ios_deployment_target", "7.0"),
                    ("SDK", "macosx_deployment_target", "10.9")]).macosxSet = !false :=
  spec_C7.2 [("SDK", "ios_deployment_target", "7.0"),
             ("SDK", "macosx_deployment_target", "10.9")] false "10.9" (by decide)

/-! ### C5 helpers -/

/-- After loading a descriptor, a recorded deployment value implies that
one of the two kind flags is set (the handler writes them together). -/
theorem foldl_flag_of_dep_some :
    ∀ (entries : List (String × String × String)) (st : SdkCfgState),
      (st.deployment_target.isSome → (st.iosSet || st.macosxSet) = true) →
      ((entries.foldl sdk_cfg_handler st).deployment_target.isSome →
        ((entries.foldl sdk_cfg_handler st).iosSet ||
         (entries.foldl sdk_cfg_handler st).macosxSet) = true) := by
  intro entries
  induction entries with
  | nil => intro st h; exact h
  | cons e es ih =>
    intro st h
    apply ih
    unfold sdk_cfg_handler
    split_ifs <;> simp_all

/-- C5: the single deployment-target slot of `call_command` is filled with
priority caller environment first (IOS before MACOSX), and otherwise from
the loaded SDK descriptor, under the variable name matching the
deployment-target key the descriptor recorded; a loaded descriptor with a
deployment value always yields exactly one variable. -/
theorem spec_C5 :
    (∀ (iosEnv macEnv : Option String) (st : SdkCfgState) (v : String),
      iosEnv = some v → call_command_depvar iosEnv macEnv st = some (DepVar.ios, v)) ∧
    (∀ (st : SdkCfgState) (v : String),
      call_command_depvar none (some v) st = some (DepVar.macosx, v)) ∧
    (∀ (entries : List (String × String × String)) (v : String),
      (loadSdkConfig entries).deployment_target = some v →
      call_command_depvar none none (loadSdkConfig entries) =
        some ((if (loadSdkConfig entries).macosxSet then DepVar.macosx else DepVar.ios),
          v)) := by
  refine ⟨fun iosEnv macEnv st v hv => by rw [hv]; rfl, fun st v => rfl, ?_⟩
  intro entries v hdt
  have hflag : ((loadSdkConfig entries).iosSet ||
      (loadSdkConfig entries).macosxSet) = true :=
    foldl_flag_of_dep_some entries sdkCfgInit
      (by intro h; simp [sdkCfgInit] at h)
      (by rw [show (entries.foldl sdk_cfg_handler sdkCfgInit).deployment_target =
          some v from hdt]; rfl)
  unfold call_command_depvar
  rw [hdt]
  cases hm : (loadSdkConfig entries).macosxSet with
  | true => simp
  | false =>
    have hios : (loadSdkConfig entries).iosSet = true := by
      rw [hm] at hflag; simpa using hflag
    simp [hios]

/-- Witness for C5: a descriptor whose macosx key was recorded sources the
MACOSX variable from the descriptor when the environment has neither
variable set. -/
theorem spec_C5_witness :
    call_command_depvar none none
        (loadSdkConfig [("SDK", "macosx_deployment_target", "10.9")]) =
      some ((if (loadSdkConfig
          [("SDK", "macosx_deployment_target", "10.9")]).macosxSet then DepVar.macosx
        else DepVar.ios), "10.9") :=
  spec_C5.2.2 [("SDK", "macosx_deployment_target", "10.9")] "10.9" (by decide)

/-! ### C8 helpers -/

/-- Strings with equal character data are equal. -/
theorem string_data_inj {a b : String} (h : a.data = b.data) : a = b := by
  cases a; cases b; exact congrArg String.mk h

/-- C8 round-trip: writing a developer-root path with the set operation and
reading it back with the get operation (DEVELOPER_DIR unset) returns the
identical string, for any path that fits the read buffer (at most
PATH_MAX - 2 = 4094 characters) and contains no NUL byte.  The
implementations write the bytes verbatim and strip nothing, so the
round-trip is the identity. -/
theorem spec_C8 (path : String) (hlen : path.length ≤ 4094)
    (hnul : ∀ c ∈ path.data, c.toNat ≠ 0) :
    get_developer_path none (set_developer_path path) = path := by
  unfold get_developer_path set_developer_path
  have h1 : path.data.take 4095 = path.data := by
    apply List.take_of_length_le
    have : path.data.length = path.length := rfl
    omega
  rw [h1]
  have h2 : path.data.takeWhile (fun c => c.toNat != 0) = path.data := by
    rw [List.takeWhile_eq_self_iff]
    intro c hc
    simpa using hnul c hc
  rw [h2]

/-- Witness for C8 at a concrete path. -/
theorem spec_C8_witness :
    get_developer_path none (set_developer_path "/opt/dev") = "/opt/dev" :=
  spec_C8 "/opt/dev" (by decide) (by decide)

/-! ### C2 helpers: disequalities between the constructed search entries -/

theorem string_data_append (a b : String) : (a ++ b).data = a.data ++ b.data := by
  cases a; cases b; rfl

/-- A toolchain `usr/bin` entry never equals the developer-root `usr/bin`
entry below the same root (they differ at the second character after the
shared root prefix). -/
theorem toolchain_dir_ne_devbin (dev n : String) :
    get_toolchain_path dev n ++ "/usr/bin" ≠ dev ++ "/usr/bin" := by
  intro h
  have h' := congrArg String.data h
  simp only [get_toolchain_path, string_data_append, List.append_assoc] at h'
  have h'' := List.append_cancel_left h'
  have hL : ("/Toolchains/".data ++
      (n.data ++ (".toolchain".data ++ "/usr/bin".data)))[1]? = some 'T' := by
    rw [List.getElem?_append_left (by decide : (1 : Nat) < "/Toolchains/".data.length)]
    decide
  rw [h''] at hL
  exact absurd hL (by decide)

/-- A toolchain `usr/bin` entry never equals an SDK `usr/bin` entry below
the same root. -/
theorem toolchain_dir_ne_sdkbin (dev n m : String) :
    get_toolchain_path dev n ++ "/usr/bin" ≠ get_sdk_path dev m ++ "/usr/bin" := by
  intro h
  have h' := congrArg String.data h
  simp only [get_toolchain_path, get_sdk_path, string_data_append,
    List.append_assoc] at h'
  have h'' := List.append_cancel_left h'
  have hL : ("/Toolchains/".data ++
      (n.data ++ (".toolchain".data ++ "/usr/bin".data)))[1]? = some 'T' := by
    rw [List.getElem?_append_left (by decide : (1 : Nat) < "/Toolchains/".data.length)]
    decide
  rw [h''] at hL
  have hR : ("/SDKs/".data ++
      (m.data ++ (".sdk".data ++ "/usr/bin".data)))[1]? = some 'S' := by
    rw [List.getElem?_append_left (by decide : (1 : Nat) < "/SDKs/".data.length)]
    decide
  have : some 'T' = some 'S' := hL.symm.trans hR
  exact absurd this (by decide)

/-- Two toolchain `usr/bin` entries below the same root agree only for the
same toolchain name. -/
theorem toolchain_dir_inj (dev a b : String)
    (h : get_toolchain_path dev a ++ "/usr/bin" =
      get_toolchain_path dev b ++ "/usr/bin") : a = b := by
  have h' := congrArg String.data h
  simp only [get_toolchain_path, string_data_append, List.append_assoc] at h'
  have h1 := List.append_cancel_left h'
  have h2 := List.append_cancel_left h1
  have h3 := List.append_cancel_right h2
  exact string_data_inj h3

/-- C2 counterexample: an SDK pinned through the SDKROOT-style source does
NOT set `explicit_sdk_mode` in the code, so resolution takes the default
branch: the SDK's `usr/bin` is followed by the DEFAULT toolchain's
directory, the toolchain named by the SDK's descriptor (here "T") is
absent, and the default toolchain's directory is present — refuting the
claim for SDKROOT-pinned contexts. -/
theorem spec_C2_counterexample :
    resolveSearchDirectories (fun _ => "T") (fun _ => false)
      (mkContext "/d" ⟨"DS", "DT"⟩ (some "/opt/MacOSX10.9.sdk") none none none
        none none) =
      ["/d/usr/bin", "/d/SDKs/MacOSX10.sdk/usr/bin",
       "/d/Toolchains/DT.toolchain/usr/bin"] ∧
    get_toolchain_path "/d" "T" ++ "/usr/bin" ∉
      resolveSearchDirectories (fun _ => "T") (fun _ => false)
        (mkContext "/d" ⟨"DS", "DT"⟩ (some "/opt/MacOSX10.9.sdk") none none none
          none none) ∧
    get_toolchain_path "/d" "DT" ++ "/usr/bin" ∈
      resolveSearchDirectories (fun _ => "T") (fun _ => false)
        (mkContext "/d" ⟨"DS", "DT"⟩ (some "/opt/MacOSX10.9.sdk") none none none
          none none) := by
  refine ⟨rfl, by decide, by decide⟩

/-- C2 amended: for every ResolutionContext whose SDK was pinned via the
`--sdk` name flag (`explicit_sdk_mode` set), the search list is exactly the
developer-root `usr/bin`, then `<sdk>/usr/bin` immediately followed by the
`usr/bin` of the toolchain named in the SDK descriptor's `toolchain` field;
any toolchain directory of a different name — in particular the default
toolchain's, whenever the descriptor names a different toolchain — is not
in the list.  (An SDK pinned via SDKROOT instead flows through the default
rule and is paired with the default toolchain.) -/
theorem spec_C2_amended (descrToolchain : String → String)
    (sdkAuthentic : String → Bool) (ctx : ResolutionContext) (dtName : String)
    (hmode : ctx.explicitSdkMode = true)
    (hne : descrToolchain (get_sdk_path ctx.developerDir ctx.currentSdk) ≠ dtName) :
    resolveSearchDirectories descrToolchain sdkAuthentic ctx =
      [ctx.developerDir ++ "/usr/bin",
       get_sdk_path ctx.developerDir ctx.currentSdk ++ "/usr/bin",
       get_toolchain_path ctx.developerDir
         (descrToolchain (get_sdk_path ctx.developerDir ctx.currentSdk)) ++
           "/usr/bin"] ∧
    get_toolchain_path ctx.developerDir dtName ++ "/usr/bin" ∉
      resolveSearchDirectories descrToolchain sdkAuthentic ctx := by
  have hlist : resolveSearchDirectories descrToolchain sdkAuthentic ctx =
      [ctx.developerDir ++ "/usr/bin",
       get_sdk_path ctx.developerDir ctx.currentSdk ++ "/usr/bin",
       get_toolchain_path ctx.developerDir
         (descrToolchain (get_sdk_path ctx.developerDir ctx.currentSdk)) ++
           "/usr/bin"] := by
    unfold resolveSearchDirectories
    rw [hmode]
    simp
  refine ⟨hlist, ?_⟩
  rw [hlist]
  intro hmem
  simp only [List.mem_cons, List.not_mem_nil, or_false] at hmem
  rcases hmem with h | h | h
  · exact toolchain_dir_ne_devbin _ _ h
  · exact toolchain_dir_ne_sdkbin _ _ _ h
  · exact hne (toolchain_dir_inj _ _ _ h).symm

/-- Witness for C2's amended theorem at a concrete flag-pinned context. -/
theorem spec_C2_amended_witness :
    resolveSearchDirectories (fun _ => "T") (fun _ => false)
      ⟨"/d", "Foo", "DT", true, false, none, none⟩ =
      ["/d" ++ "/usr/bin", get_sdk_path "/d" "Foo" ++ "/usr/bin",
       get_toolchain_path "/d" "T" ++ "/usr/bin"] ∧
    get_toolchain_path "/d" "DT" ++ "/usr/bin" ∉
      resolveSearchDirectories (fun _ => "T") (fun _ => false)
        ⟨"/d", "Foo", "DT", true, false, none, none⟩ :=
  spec_C2_amended (fun _ => "T") (fun _ => false)
    ⟨"/d", "Foo", "DT", true, false, none, none⟩ "DT" rfl (by decide)

end XcodeTools
